import Mathlib

/-!
Shallow embedding of `convert.py` (SatisfactoryAudioRenamer): a three stage
asset pipeline.  Stage 1 (`wem_to_wav`) walks an input tree, decodes `.wem`
files into a flat staging area via an external decoder, copies pre-existing
`.wav` files, and records a filename-to-folder mapping.  Stage 2 (`convert`)
scans `.txtp` reference files for `wem`-prefixed tokens and moves staged wavs
to their final destinations.  Stage 3 (`retry_failed_conversions`) replays the
failure ledger once.

The filesystem is modelled explicitly: the staging area is the list of wav
filenames it holds, the output tree is the list of paths (relative to the
`out` root, written `<folder>/<name>`) that exist, and the failure ledger is
the list of lines in `conversion_errors.log`.  The external decoder is an
oracle `String → DecodeResult` giving, for an input path, the subprocess exit
status and whether the output file exists after the call; `shutil.copy2` and
`shutil.move` success are oracles `String → Bool`.  Python `pathlib` name and
stem/suffix computations and `str.split` are reimplemented character by
character below.
-/

namespace AR

/-- Python `str.split(sep)` on a character list: splits at every occurrence of
`sep`, keeping empty fields (`"a..b".split "." = ["a", "", "b"]`). -/
def splitChar (sep : Char) : List Char → List (List Char)
  | [] => [[]]
  | c :: cs =>
    match splitChar sep cs with
    | [] => [[]]
    | h :: t => if c = sep then [] :: h :: t else (c :: h) :: t

/-- Index of the last occurrence of `c`, as in Python `str.rfind`. -/
def rfindIdx (c : Char) : List Char → Option Nat
  | [] => none
  | a :: as =>
    match rfindIdx c as with
    | some i => some (i + 1)
    | none => if a = c then some 0 else none

/-- Python `PurePath.suffix` on a path name: the part from the last dot,
provided that dot is neither the first nor the last character. -/
def suffixChars (name : List Char) : List Char :=
  match rfindIdx '.' name with
  | some i => if 0 < i ∧ i < name.length - 1 then name.drop i else []
  | none => []

/-- Python `PurePath.stem` on a path name: the name with its suffix removed. -/
def stemChars (name : List Char) : List Char :=
  match rfindIdx '.' name with
  | some i => if 0 < i ∧ i < name.length - 1 then name.take i else name
  | none => name

/-- Path components as in Python `PurePath.parts` for a relative path: split
on the separator, dropping empty and current-directory components. -/
def pathParts (s : List Char) : List (List Char) :=
  (splitChar '/' s).filter (fun p => !(p.isEmpty) && !(p == ['.']))

/-- Python `PurePath.name`: the final path component. -/
def nameChars (s : List Char) : List Char := (pathParts s).getLastD []

/-- Python `Path(s).name` on strings. -/
def pyName (s : String) : String := ⟨nameChars s.data⟩

/-- Python `Path(s).stem` on strings. -/
def pyStem (s : String) : String := ⟨stemChars (nameChars s.data)⟩

/-- Python `Path(s).suffix.lower()` on strings, as computed at line 78 of
`convert.py`. -/
def pyExt (s : String) : String := ⟨(suffixChars (nameChars s.data)).map Char.toLower⟩

/-- The staged wav filename for a source file or source path: `stem + ".wav"`
(lines 79-80 and 182 of `convert.py`). -/
def wavNameOf (s : String) : String := pyStem s ++ ".wav"

/-- Python `s.split(".")[0]` (line 146 of `convert.py`). -/
def truncFirstDot (s : String) : String := ⟨(splitChar '.' s.data).headD []⟩

/-- Token stream of a reference file (line 137 of `convert.py`): newlines
replaced by spaces, then split on single spaces. -/
def tokensOf (s : String) : List String :=
  (splitChar ' ' (s.data.map (fun c => if c = '\n' then ' ' else c))).map
    (fun l => (⟨l⟩ : String))

/-- Python `s.startswith p`. -/
def pyStartswith (p s : String) : Bool := p.data.isPrefixOf s.data

/-- Outcome of one external decoder invocation: the subprocess return code
and whether the requested output file exists after the call. -/
structure DecodeResult where
  returncode : Int
  produced : Bool
deriving DecidableEq

/-- The observable run state: the extractor's dict
`wav_filename_to_digit_folder` (Python dict update semantics: replace in
place, else append), the staging area `out_temp/wem` (list of wav filenames),
the final `out` tree (list of `<folder>/<name>` paths), the failure ledger
`conversion_errors.log` (list of lines), the three global counters, and the
number of decoder subprocess invocations made in the current run. -/
structure PState where
  mapping : List (String × String)
  staging : List String
  outFS : List String
  ledger : List String
  converted : Nat
  skipped : Nat
  failed : Nat
  decCalls : Nat
deriving DecidableEq

/-- Python dict assignment `m[k] = v`: replace the existing entry for `k` in
place, or append a new one. -/
def insertAssoc (m : List (String × String)) (k v : String) : List (String × String) :=
  match m with
  | [] => [(k, v)]
  | p :: rest => if p.1 = k then (k, v) :: rest else p :: insertAssoc rest k v

/-- Python dict lookup `m.get k`. -/
def lookupAssoc (m : List (String × String)) (k : String) : Option String :=
  match m with
  | [] => none
  | p :: rest => if p.1 = k then some p.2 else lookupAssoc rest k

/-- Category label for a walked folder (line 75 of `convert.py`): `"root"`
when the folder is the input root itself, else the folder's own name. -/
def digitFolderOf (inputRoot folderPath : String) : String :=
  if folderPath = inputRoot then "root" else pyName folderPath

/-- One file of the extractor walk (lines 77-120 of `convert.py`): record the
mapping entry, then either skip (same-named wav already staged or already at
the `out/<digit_folder>/<name>` guess), decode a `.wem`, copy a `.wav`, or
ignore the file. -/
def stepFile (dec : String → DecodeResult) (copyOk : String → Bool)
    (digitFolder folderPath : String) (st : PState) (file : String) : PState :=
  let wavName := wavNameOf file
  let wemPath := folderPath ++ "/" ++ file
  let st := { st with mapping := insertAssoc st.mapping wavName digitFolder }
  if wavName ∈ st.staging ∨ digitFolder ++ "/" ++ wavName ∈ st.outFS then
    { st with skipped := st.skipped + 1 }
  else if pyExt file = ".wem" then
    let r := dec wemPath
    let st := { st with decCalls := st.decCalls + 1,
                        staging := if r.produced then wavName :: st.staging else st.staging }
    if r.returncode ≠ 0 ∨ r.produced = false then
      { st with failed := st.failed + 1, ledger := st.ledger ++ [wemPath] }
    else
      { st with converted := st.converted + 1 }
  else if pyExt file = ".wav" then
    if copyOk wemPath then
      { st with staging := wavName :: st.staging, skipped := st.skipped + 1 }
    else
      { st with failed := st.failed + 1, ledger := st.ledger ++ [wemPath] }
  else st

/-- One folder yielded by `os.walk` in `wem_to_wav`: a folder path and the
regular files directly inside it. -/
structure FolderEntry where
  path : String
  files : List String

/-- Process all files of one walked folder (lines 71-120 of `convert.py`). -/
def walkFolder (dec : String → DecodeResult) (copyOk : String → Bool)
    (inputRoot : String) (st : PState) (e : FolderEntry) : PState :=
  e.files.foldl (stepFile dec copyOk (digitFolderOf inputRoot e.path) e.path) st

/-- Stage 1 (`wem_to_wav`, lines 59-121): wipe the staging area, start a fresh
mapping, and walk the input tree. -/
def wem_to_wav (dec : String → DecodeResult) (copyOk : String → Bool)
    (inputRoot : String) (entries : List FolderEntry) (st : PState) : PState :=
  entries.foldl (walkFolder dec copyOk inputRoot) { st with staging := [], mapping := [] }

/-- Staged filename referenced by a token (line 141 of `convert.py`):
`Path(token).stem + ".wav"`. -/
def tokenWav (token : String) : String := pyStem token ++ ".wav"

/-- Destination path computed by the renamer for one token (lines 143-146 of
`convert.py`), relative to the `out` root. -/
def tokenTarget (m : List (String × String)) (filename token : String) (i : Nat) : String :=
  (lookupAssoc m (tokenWav token)).getD "unknown" ++ "/" ++ truncFirstDot filename
    ++ "_" ++ toString i ++ ".wav"

/-- One token of the renamer loop (lines 139-159 of `convert.py`): for a
`wem`-prefixed token, skip if the destination exists, else move the staged
file there when it is present and the move succeeds. -/
def convertToken (moveOk : String → Bool) (filename : String) (st : PState)
    (i : Nat) (token : String) : PState :=
  if pyStartswith "wem" token then
    let wavFileOnly := tokenWav token
    let newName := tokenTarget st.mapping filename token i
    if newName ∈ st.outFS then st
    else if wavFileOnly ∈ st.staging then
      if moveOk newName then
        { st with staging := st.staging.erase wavFileOnly, outFS := newName :: st.outFS }
      else st
    else st
  else st

/-- Stage 2 (`convert`, lines 125-159): read the reference file (`none`
models a read failure, which returns immediately), tokenize, and process each
token with its ordinal position. -/
def convert (moveOk : String → Bool) (filename : String) (content : Option String)
    (st : PState) : PState :=
  match content with
  | none => st
  | some data =>
      (tokensOf data).enum.foldl (fun s p => convertToken moveOk filename s p.1 p.2) st

/-- One ledger entry of the retry loop (lines 180-207 of `convert.py`); the
second component of the pair is the local `new_failures` counter. -/
def retryStep (dec2 : String → DecodeResult) (p : PState × Nat) (wemPathStr : String) :
    PState × Nat :=
  let st := p.1
  let wavName := wavNameOf wemPathStr
  if wavName ∈ st.staging then p
  else
    let r := dec2 wemPathStr
    let st := { st with decCalls := st.decCalls + 1,
                        staging := if r.produced then wavName :: st.staging else st.staging }
    if r.returncode ≠ 0 ∨ r.produced = false then
      ({ st with ledger := st.ledger ++ [wemPathStr] }, p.2 + 1)
    else
      ({ st with converted := st.converted + 1 }, p.2)

/-- The retry loop over the consumed ledger entries. -/
def retryPass (dec2 : String → DecodeResult) (p : PState × Nat) (l : List String) :
    PState × Nat :=
  l.foldl (retryStep dec2) p

/-- Stage 3 (`retry_failed_conversions`, lines 163-210): if the ledger file
exists, read its non-empty lines, truncate it, replay each entry, and replace
the global `failed_count` by the number of renewed failures. -/
def retry_failed_conversions (dec2 : String → DecodeResult) (ledgerFileExists : Bool)
    (st : PState) : PState :=
  if ledgerFileExists then
    let entries := st.ledger.filter (fun line => !(line == ""))
    let p := retryPass dec2 ({ st with ledger := [] }, 0) entries
    { p.1 with failed := p.2 }
  else st

/-- Per-run reset (lines 20-27 and 52-55 of `convert.py`): a fresh process
starts with zero counters, and the `mode="w"` log handler truncates the
failure ledger. -/
def resetRun (st : PState) : PState :=
  { st with converted := 0, skipped := 0, failed := 0, decCalls := 0, ledger := [] }

/-- The driver (lines 214-233): reset, extract, rename per reference file,
retry once, and delete the temporary staging tree. -/
def runPipeline (dec dec2 : String → DecodeResult) (copyOk moveOk : String → Bool)
    (inputRoot : String) (entries : List FolderEntry)
    (refFiles : List (String × Option String)) (st : PState) : PState :=
  let st1 := wem_to_wav dec copyOk inputRoot entries (resetRun st)
  let st2 := refFiles.foldl (fun s fc => convert moveOk fc.1 fc.2 s) st1
  let st3 := retry_failed_conversions dec2 true st2
  { st3 with staging := [] }

/-- Spec-side reference-file stem, following the spec's words: the reference
file's name truncated at its first dot character. -/
def specRefStem (s : String) : String := ⟨s.data.takeWhile (fun c => !(c == '.'))⟩

/-- Spec-side destination path, written from the spec's words for comparison
with the implementation's `tokenTarget`: the FolderMapping entry for
`<token stem>.wav` (or `"unknown"` when absent), then the reference file's
name truncated at its first dot, an underscore, and the token's ordinal
position. -/
def specTarget (m : List (String × String)) (refName token : String) (i : Nat) : String :=
  (match lookupAssoc m (pyStem token ++ ".wav") with
   | some lab => lab
   | none => "unknown") ++ "/" ++ specRefStem refName ++ "_" ++ toString i ++ ".wav"

/-- Observation of the retry pass: the consumed ledger entries that are
replayed and fail again during the pass, in order.  The staging area is
tracked exactly as the pass evolves it: an entry whose expected wav is
already staged is skipped, a replayed entry that produced an output stages
it, so a later entry with the same wav name is then skipped. -/
def failedAgainList (dec2 : String → DecodeResult) (staging : List String) :
    List String → List String
  | [] => []
  | e :: es =>
    if wavNameOf e ∈ staging then failedAgainList dec2 staging es
    else if (dec2 e).returncode ≠ 0 ∨ (dec2 e).produced = false then
      e :: failedAgainList dec2
        (if (dec2 e).produced then wavNameOf e :: staging else staging) es
    else failedAgainList dec2 (wavNameOf e :: staging) es

/-- Observation of the retry pass: the number of consumed ledger entries that
are replayed during the pass and now succeed, with the staging area tracked
as in `failedAgainList`. -/
def succAgainCount (dec2 : String → DecodeResult) (staging : List String) :
    List String → Nat
  | [] => 0
  | e :: es =>
    if wavNameOf e ∈ staging then succAgainCount dec2 staging es
    else if (dec2 e).returncode ≠ 0 ∨ (dec2 e).produced = false then
      succAgainCount dec2
        (if (dec2 e).produced then wavNameOf e :: staging else staging) es
    else succAgainCount dec2 (wavNameOf e :: staging) es + 1

/-- Decoder oracle that always succeeds. -/
def dec1 : String → DecodeResult := fun _ => ⟨0, true⟩

/-- Decoder oracle that always fails and produces nothing. -/
def decF : String → DecodeResult := fun _ => ⟨1, false⟩

/-- Filesystem oracle that always succeeds. -/
def yes1 : String → Bool := fun _ => true

/-- The empty initial state. -/
def st0 : PState := ⟨[], [], [], [], 0, 0, 0, 0⟩

/-- A one-asset input tree: `in/472/123.wem`. -/
def entries1 : List FolderEntry := [⟨"in/472", ["123.wem"]⟩]

/-- One reference file naming that asset once. -/
def refs1 : List (String × Option String) := [("A.txtp", some "wem/123.wem")]

/-- The state after a first full pipeline run over `entries1` and `refs1`. -/
def run1c : PState := runPipeline dec1 dec1 yes1 yes1 "in" entries1 refs1 st0

/-- State with one staged wav and its mapping entry. -/
def stB : PState := ⟨[("123.wav", "472")], ["123.wav"], [], [], 0, 0, 0, 0⟩

/-- State with one staged wav and no mapping entry for it. -/
def stC : PState := ⟨[], ["123.wav"], [], [], 0, 0, 0, 0⟩

/-- State in which `9.wav` is already staged. -/
def stD : PState := ⟨[], ["9.wav"], [], [], 0, 0, 0, 0⟩

/-- State in which `123.wav` is already staged, for the retry-skip scenario. -/
def st10 : PState := ⟨[], ["123.wav"], [], [], 0, 0, 0, 0⟩

theorem splitChar_ne_nil (sep : Char) (l : List Char) : splitChar sep l ≠ [] := by
  induction l with
  | nil => simp [splitChar]
  | cons c cs ih =>
    simp only [splitChar]
    split
    · simp
    · split <;> simp

theorem splitChar_headD (sep : Char) (l : List Char) :
    (splitChar sep l).headD [] = l.takeWhile (fun c => !(c == sep)) := by
  induction l with
  | nil => simp [splitChar]
  | cons c cs ih =>
    simp only [splitChar]
    cases h : splitChar sep cs with
    | nil => exact absurd h (splitChar_ne_nil sep cs)
    | cons a t =>
      rw [h] at ih
      simp only [List.headD_cons] at ih
      by_cases hc : c = sep
      · simp [hc, List.takeWhile_cons]
      · simp [List.takeWhile_cons, hc, ih]

theorem truncFirstDot_eq_takeWhile (s : String) :
    truncFirstDot s = ⟨s.data.takeWhile (fun c => !(c == '.'))⟩ := by
  unfold truncFirstDot
  rw [splitChar_headD]

theorem tokenTarget_eq_specTarget (m : List (String × String)) (refName token : String)
    (i : Nat) : tokenTarget m refName token i = specTarget m refName token i := by
  unfold tokenTarget specTarget tokenWav specRefStem
  rw [truncFirstDot_eq_takeWhile]
  cases lookupAssoc m (pyStem token ++ ".wav") <;> rfl

theorem stepFile_mapping (dec : String → DecodeResult) (copyOk : String → Bool)
    (digitFolder folderPath : String) (st : PState) (file : String) :
    (stepFile dec copyOk digitFolder folderPath st file).mapping =
      insertAssoc st.mapping (wavNameOf file) digitFolder := by
  simp only [stepFile]
  split
  · rfl
  · split
    · split <;> rfl
    · split
      · split <;> rfl
      · rfl

theorem stepFile_outFS (dec : String → DecodeResult) (copyOk : String → Bool)
    (digitFolder folderPath : String) (st : PState) (file : String) :
    (stepFile dec copyOk digitFolder folderPath st file).outFS = st.outFS := by
  simp only [stepFile]
  split
  · rfl
  · split
    · split <;> rfl
    · split
      · split <;> rfl
      · rfl

theorem walkFolder_outFS (dec : String → DecodeResult) (copyOk : String → Bool)
    (inputRoot : String) (st : PState) (e : FolderEntry) :
    (walkFolder dec copyOk inputRoot st e).outFS = st.outFS := by
  unfold walkFolder
  generalize digitFolderOf inputRoot e.path = d
  induction e.files generalizing st with
  | nil => rfl
  | cons f fs ih => rw [List.foldl_cons, ih, stepFile_outFS]

theorem wem_to_wav_outFS (dec : String → DecodeResult) (copyOk : String → Bool)
    (inputRoot : String) (entries : List FolderEntry) (st : PState) :
    (wem_to_wav dec copyOk inputRoot entries st).outFS = st.outFS := by
  unfold wem_to_wav
  have : ∀ (l : List FolderEntry) (s : PState),
      (l.foldl (walkFolder dec copyOk inputRoot) s).outFS = s.outFS := by
    intro l
    induction l with
    | nil => intro s; rfl
    | cons e es ih => intro s; rw [List.foldl_cons, ih, walkFolder_outFS]
  rw [this]

theorem convertToken_skip (moveOk : String → Bool) (filename : String) (st : PState)
    (i : Nat) (token : String)
    (h : pyStartswith "wem" token = true → tokenTarget st.mapping filename token i ∈ st.outFS) :
    convertToken moveOk filename st i token = st := by
  simp only [convertToken]
  cases htok : pyStartswith "wem" token with
  | false => simp
  | true => simp [h htok]

theorem foldTokens_id (moveOk : String → Bool) (filename : String) :
    ∀ (l : List (Nat × String)) (st : PState),
      (∀ p ∈ l, pyStartswith "wem" p.2 = true →
        tokenTarget st.mapping filename p.2 p.1 ∈ st.outFS) →
      l.foldl (fun s p => convertToken moveOk filename s p.1 p.2) st = st := by
  intro l
  induction l with
  | nil => intro st _; rfl
  | cons p ps ih =>
    intro st h
    rw [List.foldl_cons, convertToken_skip moveOk filename st p.1 p.2 (h p (by simp))]
    exact ih st (fun q hq => h q (by simp [hq]))

theorem convert_id (moveOk : String → Bool) (filename : String) (content : Option String)
    (st : PState)
    (h : ∀ d ∈ content.toList, ∀ p ∈ (tokensOf d).enum,
      pyStartswith "wem" p.2 = true → tokenTarget st.mapping filename p.2 p.1 ∈ st.outFS) :
    convert moveOk filename content st = st := by
  cases content with
  | none => rfl
  | some d =>
    exact foldTokens_id moveOk filename (tokensOf d).enum st (h d (by simp))

theorem retryStep_skip (dec2 : String → DecodeResult) (p : PState × Nat) (e : String)
    (h : wavNameOf e ∈ p.1.staging) : retryStep dec2 p e = p := by
  simp [retryStep, h]

theorem retryStep_staging_sub (dec2 : String → DecodeResult) (p : PState × Nat) (e : String) :
    p.1.staging ⊆ (retryStep dec2 p e).1.staging := by
  simp only [retryStep]
  split
  · exact fun x hx => hx
  · split
    · split
      · exact fun x hx => List.mem_cons_of_mem _ hx
      · exact fun x hx => hx
    · split
      · exact fun x hx => List.mem_cons_of_mem _ hx
      · exact fun x hx => hx

theorem retryPass_staging_mono (dec2 : String → DecodeResult) :
    ∀ (l : List String) (p : PState × Nat),
      p.1.staging ⊆ (retryPass dec2 p l).1.staging := by
  intro l
  induction l with
  | nil => intro p x hx; exact hx
  | cons e es ih =>
    intro p x hx
    exact ih (retryStep dec2 p e) (retryStep_staging_sub dec2 p e hx)

theorem retryStep_outFS (dec2 : String → DecodeResult) (p : PState × Nat) (e : String) :
    (retryStep dec2 p e).1.outFS = p.1.outFS := by
  simp only [retryStep]
  split
  · rfl
  · split
    · split <;> rfl
    · split <;> rfl

theorem retryPass_outFS (dec2 : String → DecodeResult) :
    ∀ (l : List String) (p : PState × Nat),
      (retryPass dec2 p l).1.outFS = p.1.outFS := by
  intro l
  induction l with
  | nil => intro p; rfl
  | cons e es ih =>
    intro p
    rw [retryPass, List.foldl_cons]
    rw [show es.foldl (retryStep dec2) (retryStep dec2 p e) =
      retryPass dec2 (retryStep dec2 p e) es from rfl]
    rw [ih, retryStep_outFS]

theorem retry_outFS (dec2 : String → DecodeResult) (b : Bool) (st : PState) :
    (retry_failed_conversions dec2 b st).outFS = st.outFS := by
  simp only [retry_failed_conversions]
  split
  · rw [show ({ (retryPass dec2 ({ st with ledger := [] }, 0)
        (st.ledger.filter (fun line => !(line == "")))).1 with
        failed := (retryPass dec2 ({ st with ledger := [] }, 0)
        (st.ledger.filter (fun line => !(line == "")))).2 } : PState).outFS =
      (retryPass dec2 ({ st with ledger := [] }, 0)
        (st.ledger.filter (fun line => !(line == "")))).1.outFS from rfl]
    rw [retryPass_outFS]
  · rfl

theorem retryPass_dyn (dec2 : String → DecodeResult) :
    ∀ (l : List String) (st : PState) (nf : Nat),
      (retryPass dec2 (st, nf) l).2 = nf + (failedAgainList dec2 st.staging l).length ∧
      (retryPass dec2 (st, nf) l).1.ledger =
        st.ledger ++ failedAgainList dec2 st.staging l ∧
      (retryPass dec2 (st, nf) l).1.converted =
        st.converted + succAgainCount dec2 st.staging l := by
  intro l
  induction l with
  | nil => intro st nf; simp [retryPass, failedAgainList, succAgainCount]
  | cons e es ih =>
    intro st nf
    have hstep : retryPass dec2 (st, nf) (e :: es) =
        retryPass dec2 (retryStep dec2 (st, nf) e) es := rfl
    rw [hstep]
    by_cases hskip : wavNameOf e ∈ st.staging
    · rw [retryStep_skip dec2 (st, nf) e hskip]
      simp only [failedAgainList, succAgainCount, if_pos hskip]
      exact ih st nf
    · by_cases hc : (dec2 e).returncode ≠ 0 ∨ (dec2 e).produced = false
      · -- the entry fails again
        have hstep2 : retryStep dec2 (st, nf) e =
            ({ st with decCalls := st.decCalls + 1,
                       staging := if (dec2 e).produced then wavNameOf e :: st.staging
                                  else st.staging,
                       ledger := st.ledger ++ [e] }, nf + 1) := by
          simp only [retryStep]
          rw [if_neg hskip, if_pos hc]
        rw [hstep2]
        obtain ⟨i1, i2, i3⟩ := ih
          { st with decCalls := st.decCalls + 1,
                    staging := if (dec2 e).produced then wavNameOf e :: st.staging
                               else st.staging,
                    ledger := st.ledger ++ [e] } (nf + 1)
        dsimp only at i1 i2 i3
        simp only [failedAgainList, succAgainCount, if_neg hskip, if_pos hc]
        refine ⟨?_, ?_, ?_⟩
        · rw [i1, List.length_cons]
          omega
        · rw [i2, List.append_assoc]
          rfl
        · rw [i3]
      · -- the entry now succeeds
        have h0 : (dec2 e).returncode = 0 := by
          by_contra hn
          exact hc (Or.inl hn)
        have hp : (dec2 e).produced = true := by
          cases hpv : (dec2 e).produced with
          | false => exact absurd (Or.inr hpv) hc
          | true => rfl
        have hstep2 : retryStep dec2 (st, nf) e =
            ({ st with decCalls := st.decCalls + 1,
                       staging := wavNameOf e :: st.staging,
                       converted := st.converted + 1 }, nf) := by
          simp only [retryStep]
          rw [if_neg hskip, if_neg hc, hp]
          simp
        rw [hstep2]
        obtain ⟨i1, i2, i3⟩ := ih
          { st with decCalls := st.decCalls + 1,
                    staging := wavNameOf e :: st.staging,
                    converted := st.converted + 1 } nf
        dsimp only at i1 i2 i3
        simp only [failedAgainList, succAgainCount, if_neg hskip, if_neg hc]
        refine ⟨?_, ?_, ?_⟩
        · rw [i1]
        · rw [i2]
        · rw [i3]
          omega

/-- C1, counterexample: after a first full run over a one-asset tree that
converted and renamed everything (converted = 1, final output `472/A_0.wav`,
nothing failed), a second identical run still invokes the Decoder once and
reports a converted (not skipped) outcome, because the extractor's skip guess
`out/472/123.wav` does not match the renamed output `out/472/A_0.wav`. -/
theorem second_run_invokes_decoder :
    run1c.converted = 1 ∧ run1c.outFS = ["472/A_0.wav"] ∧ run1c.failed = 0 ∧
    (runPipeline dec1 dec1 yes1 yes1 "in" entries1 refs1 run1c).decCalls = 1 ∧
    (runPipeline dec1 dec1 yes1 yes1 "in" entries1 refs1 run1c).converted = 1 ∧
    (runPipeline dec1 dec1 yes1 yes1 "in" entries1 refs1 run1c).skipped = 0 := by
  decide

/-- C1, amended: when every `wem` token destination of every reference file
is already present in the output tree (as after a complete first run), a
second full pipeline run leaves the final output content exactly unchanged
and overwrites nothing; the claim's further assertions (only skipped
outcomes, no Decoder invocation) fail, as the counterexample shows. -/
theorem second_run_preserves_output (dec dec2 : String → DecodeResult)
    (copyOk moveOk : String → Bool) (inputRoot : String) (entries : List FolderEntry)
    (refFiles : List (String × Option String)) (st : PState)
    (h : ∀ fc ∈ refFiles, ∀ d ∈ fc.2.toList, ∀ p ∈ (tokensOf d).enum,
      pyStartswith "wem" p.2 = true →
      tokenTarget (wem_to_wav dec copyOk inputRoot entries (resetRun st)).mapping
        fc.1 p.2 p.1 ∈ st.outFS) :
    (runPipeline dec dec2 copyOk moveOk inputRoot entries refFiles st).outFS = st.outFS := by
  have hout1 : (wem_to_wav dec copyOk inputRoot entries (resetRun st)).outFS = st.outFS := by
    rw [wem_to_wav_outFS]
    rfl
  have hfold : ∀ (rf : List (String × Option String)),
      (∀ fc ∈ rf, ∀ d ∈ fc.2.toList, ∀ p ∈ (tokensOf d).enum,
        pyStartswith "wem" p.2 = true →
        tokenTarget (wem_to_wav dec copyOk inputRoot entries (resetRun st)).mapping
          fc.1 p.2 p.1 ∈ st.outFS) →
      rf.foldl (fun s fc => convert moveOk fc.1 fc.2 s)
        (wem_to_wav dec copyOk inputRoot entries (resetRun st)) =
        wem_to_wav dec copyOk inputRoot entries (resetRun st) := by
    intro rf
    induction rf with
    | nil => intro _; rfl
    | cons fc rest ih =>
      intro hh
      rw [List.foldl_cons, convert_id moveOk fc.1 fc.2 _ ?_]
      · exact ih (fun q hq => hh q (by simp [hq]))
      · intro d hd p hp htok
        rw [hout1]
        exact hh fc (by simp) d hd p hp htok
  show (retry_failed_conversions dec2 true
    (refFiles.foldl (fun s fc => convert moveOk fc.1 fc.2 s)
      (wem_to_wav dec copyOk inputRoot entries (resetRun st)))).outFS = st.outFS
  rw [hfold refFiles h, retry_outFS, hout1]

/-- C1, witness for the amended theorem: re-running the pipeline over the
state produced by the concrete first run keeps the output tree unchanged. -/
theorem second_run_preserves_output_witness :
    (runPipeline dec1 dec1 yes1 yes1 "in" entries1 refs1 run1c).outFS = run1c.outFS :=
  second_run_preserves_output dec1 dec1 yes1 yes1 "in" entries1 refs1 run1c (by decide)

/-- C2: for every token of the reference file's token stream that starts with
the prefix `wem`, the renamer's entire behaviour (skip test, staging test,
move) is directed at the spec-side destination path
`<label>/<refstem>_<i>.wav`, where the label is the FolderMapping entry for
`<token stem>.wav` (or `"unknown"`), `<refstem>` is the reference-file name
truncated at its first dot, and `i` is the token's ordinal position in the
full token list. -/
theorem renamer_targets_spec_path (moveOk : String → Bool) (filename d : String) :
    ∀ p ∈ (tokensOf d).enum, pyStartswith "wem" p.2 = true → ∀ st : PState,
      convertToken moveOk filename st p.1 p.2 =
        if specTarget st.mapping filename p.2 p.1 ∈ st.outFS then st
        else if tokenWav p.2 ∈ st.staging then
          if moveOk (specTarget st.mapping filename p.2 p.1) = true then
            { st with staging := st.staging.erase (tokenWav p.2),
                      outFS := specTarget st.mapping filename p.2 p.1 :: st.outFS }
          else st
        else st := by
  intro p _ htok st
  simp only [convertToken, tokenTarget_eq_specTarget]
  rw [if_pos htok]

/-- C2, witness: the single `wem` token of a concrete reference file is moved
to `472/A_0.wav`. -/
theorem renamer_targets_spec_path_witness :
    (convertToken yes1 "A.txtp" stB 0 "wem/123.wem").outFS = ["472/A_0.wav"] := by
  rw [renamer_targets_spec_path yes1 "A.txtp" "wem/123.wem" ⟨0, "wem/123.wem"⟩
    (by decide) (by decide) stB]
  decide

/-- C3: for a `.wem` file that is not skipped, the decoder is invoked once
and the outcome counts as a success exactly when the exit status is zero and
the output file exists afterwards; on success the converted counter increases
by one, on failure the failed counter increases by one and the source path is
appended to the failure ledger. -/
theorem wem_decode_outcome (dec : String → DecodeResult) (copyOk : String → Bool)
    (digitFolder folderPath : String) (st : PState) (file : String)
    (hext : pyExt file = ".wem")
    (hstage : wavNameOf file ∉ st.staging)
    (hout : digitFolder ++ "/" ++ wavNameOf file ∉ st.outFS) :
    (stepFile dec copyOk digitFolder folderPath st file).decCalls = st.decCalls + 1 ∧
    (stepFile dec copyOk digitFolder folderPath st file).converted = st.converted +
      (if (dec (folderPath ++ "/" ++ file)).returncode = 0 ∧
          (dec (folderPath ++ "/" ++ file)).produced = true then 1 else 0) ∧
    (stepFile dec copyOk digitFolder folderPath st file).failed = st.failed +
      (if (dec (folderPath ++ "/" ++ file)).returncode = 0 ∧
          (dec (folderPath ++ "/" ++ file)).produced = true then 0 else 1) ∧
    (stepFile dec copyOk digitFolder folderPath st file).ledger = st.ledger ++
      (if (dec (folderPath ++ "/" ++ file)).returncode = 0 ∧
          (dec (folderPath ++ "/" ++ file)).produced = true then []
       else [folderPath ++ "/" ++ file]) := by
  have hns : ¬(wavNameOf file ∈ st.staging ∨
      digitFolder ++ "/" ++ wavNameOf file ∈ st.outFS) := by
    rintro (hc | hc)
    exacts [hstage hc, hout hc]
  simp only [stepFile]
  rw [if_neg hns, if_pos hext]
  by_cases hc : (dec (folderPath ++ "/" ++ file)).returncode = 0 ∧
      (dec (folderPath ++ "/" ++ file)).produced = true
  · have hcond : ¬((dec (folderPath ++ "/" ++ file)).returncode ≠ 0 ∨
        (dec (folderPath ++ "/" ++ file)).produced = false) := by
      push_neg
      exact ⟨hc.1, by simp [hc.2]⟩
    rw [if_neg hcond]
    simp [hc]
  · have hcond : (dec (folderPath ++ "/" ++ file)).returncode ≠ 0 ∨
        (dec (folderPath ++ "/" ++ file)).produced = false := by
      by_cases h0 : (dec (folderPath ++ "/" ++ file)).returncode = 0
      · cases hp : (dec (folderPath ++ "/" ++ file)).produced with
        | false => exact Or.inr rfl
        | true => exact absurd ⟨h0, hp⟩ hc

      · exact Or.inl h0
    rw [if_pos hcond]
    simp [hc]

/-- C3, witness: a fresh `.wem` with an always-succeeding decoder is decoded
once and counted as converted. -/
theorem wem_decode_outcome_witness :
    (stepFile dec1 yes1 "472" "in/472" st0 "9.wem").decCalls = 1 ∧
    (stepFile dec1 yes1 "472" "in/472" st0 "9.wem").converted = 1 := by
  have h := wem_decode_outcome dec1 yes1 "472" "in/472" st0 "9.wem"
    (by decide) (by decide) (by decide)
  exact ⟨by rw [h.1]; decide, by rw [h.2.1]; decide⟩

/-- C4: after the single retry pass, the reported failed count equals exactly
the number of consumed ledger entries that failed again during that pass, the
failure ledger afterwards contains exactly those still-failing entries in
order (so in particular the failed count equals the length of the resulting
ledger, and entries that succeeded on retry do not reappear in it), and each
entry that succeeded on retry contributes exactly one to the converted
counter.  The per-entry outcomes are observed by `failedAgainList` and
`succAgainCount` against the staging area as the pass itself evolves it, so
the statement also covers ledgers whose entries share a staged wav name. -/
theorem retry_pass_counts (dec2 : String → DecodeResult) (st : PState) :
    (retry_failed_conversions dec2 true st).failed =
      (failedAgainList dec2 st.staging
        (st.ledger.filter (fun line => !(line == "")))).length ∧
    (retry_failed_conversions dec2 true st).ledger =
      failedAgainList dec2 st.staging (st.ledger.filter (fun line => !(line == ""))) ∧
    (retry_failed_conversions dec2 true st).failed =
      (retry_failed_conversions dec2 true st).ledger.length ∧
    (retry_failed_conversions dec2 true st).converted =
      st.converted + succAgainCount dec2 st.staging
        (st.ledger.filter (fun line => !(line == ""))) := by
  obtain ⟨i1, i2, i3⟩ := retryPass_dyn dec2
    (st.ledger.filter (fun line => !(line == ""))) { st with ledger := [] } 0
  dsimp only at i1 i2 i3
  have hru : retry_failed_conversions dec2 true st =
      { (retryPass dec2 ({ st with ledger := [] }, 0)
          (st.ledger.filter (fun line => !(line == "")))).1 with
        failed := (retryPass dec2 ({ st with ledger := [] }, 0)
          (st.ledger.filter (fun line => !(line == "")))).2 } := rfl
  have c1 : (retry_failed_conversions dec2 true st).failed =
      (failedAgainList dec2 st.staging
        (st.ledger.filter (fun line => !(line == "")))).length := by
    rw [hru]
    dsimp only
    rw [i1]
    simp
  have c2 : (retry_failed_conversions dec2 true st).ledger =
      failedAgainList dec2 st.staging (st.ledger.filter (fun line => !(line == ""))) := by
    rw [hru]
    dsimp only
    rw [i2]
    simp
  refine ⟨c1, c2, ?_, ?_⟩
  · rw [c1, c2]
  · rw [hru]
    dsimp only
    rw [i3]

/-- C5: a `wem` token whose staged filename has no FolderMapping entry is
resolved to the fallback label `"unknown"`, and the staged file is moved to
`unknown/<refstem>_<i>.wav`; no error is possible in this path. -/
theorem unknown_label_fallback (moveOk : String → Bool) (filename : String) (st : PState)
    (i : Nat) (token : String)
    (htok : pyStartswith "wem" token = true)
    (hlook : lookupAssoc st.mapping (tokenWav token) = none)
    (hstaged : tokenWav token ∈ st.staging)
    (hfresh : "unknown" ++ "/" ++ truncFirstDot filename ++ "_" ++ toString i ++ ".wav"
      ∉ st.outFS)
    (hmove : moveOk ("unknown" ++ "/" ++ truncFirstDot filename ++ "_" ++ toString i
      ++ ".wav") = true) :
    (convertToken moveOk filename st i token).outFS =
      ("unknown" ++ "/" ++ truncFirstDot filename ++ "_" ++ toString i ++ ".wav")
        :: st.outFS := by
  have htar : tokenTarget st.mapping filename token i =
      "unknown" ++ "/" ++ truncFirstDot filename ++ "_" ++ toString i ++ ".wav" := by
    simp [tokenTarget, hlook]
  simp only [convertToken, htar]
  rw [if_pos htok, if_neg hfresh, if_pos hstaged, if_pos hmove]

/-- C5, witness: with an empty mapping, the staged `123.wav` lands under the
`unknown` category. -/
theorem unknown_label_fallback_witness :
    (convertToken yes1 "A.txtp" stC 0 "wem/123.wem").outFS = ["unknown/A_0.wav"] := by
  have h := unknown_label_fallback yes1 "A.txtp" stC 0 "wem/123.wem"
    (by decide) (by decide) (by decide) (by decide) (by decide)
  rw [h]
  decide

/-- C6: when a same-named wav already exists in the staging area or at the
`out/<digit_folder>/<stem>.wav` guess, the extractor skips the file: the
skipped counter increases by exactly one and no decode, copy, failure or
ledger effect occurs. -/
theorem existing_wav_skipped (dec : String → DecodeResult) (copyOk : String → Bool)
    (digitFolder folderPath : String) (st : PState) (file : String)
    (h : wavNameOf file ∈ st.staging ∨ digitFolder ++ "/" ++ wavNameOf file ∈ st.outFS) :
    (stepFile dec copyOk digitFolder folderPath st file).skipped = st.skipped + 1 ∧
    (stepFile dec copyOk digitFolder folderPath st file).decCalls = st.decCalls ∧
    (stepFile dec copyOk digitFolder folderPath st file).staging = st.staging ∧
    (stepFile dec copyOk digitFolder folderPath st file).converted = st.converted ∧
    (stepFile dec copyOk digitFolder folderPath st file).failed = st.failed ∧
    (stepFile dec copyOk digitFolder folderPath st file).ledger = st.ledger ∧
    (stepFile dec copyOk digitFolder folderPath st file).outFS = st.outFS := by
  simp only [stepFile]
  rw [if_pos h]
  simp

/-- C6, witness: a `.wem` whose wav is already staged is skipped without a
decoder call. -/
theorem existing_wav_skipped_witness :
    (stepFile dec1 yes1 "472" "in/472" stD "9.wem").skipped = 1 ∧
    (stepFile dec1 yes1 "472" "in/472" stD "9.wem").decCalls = 0 := by
  have h := existing_wav_skipped dec1 yes1 "472" "in/472" stD "9.wem" (by decide)
  exact ⟨by rw [h.1]; decide, by rw [h.2.1]; decide⟩

/-- C7: the category label is `"root"` exactly when the walked folder is the
input root itself, and otherwise it is the folder's own name, never the root
directory's name. -/
theorem digit_folder_label (inputRoot folderPath : String) :
    (folderPath = inputRoot → digitFolderOf inputRoot folderPath = "root") ∧
    (folderPath ≠ inputRoot → digitFolderOf inputRoot folderPath = pyName folderPath) := by
  constructor <;> intro h <;> simp [digitFolderOf, h]

/-- C7, witness: a file directly in the root `txtp/wem` is labelled `root`,
and a file in subfolder `472` is labelled `472`. -/
theorem digit_folder_label_witness :
    digitFolderOf "txtp/wem" "txtp/wem" = "root" ∧
    digitFolderOf "txtp/wem" "txtp/wem/472" = "472" := by
  refine ⟨(digit_folder_label "txtp/wem" "txtp/wem").1 rfl, ?_⟩
  rw [(digit_folder_label "txtp/wem" "txtp/wem/472").2 (by decide)]
  decide

/-- C8, counterexample: a traversed `.txt` file is not ignored without trace;
it contributes a FolderMapping entry `notes.wav → 472`, so the run's state is
changed. -/
theorem other_ext_adds_mapping :
    lookupAssoc (stepFile dec1 yes1 "472" "in/472" st0 "notes.txt").mapping "notes.wav"
      = some "472" ∧
    (stepFile dec1 yes1 "472" "in/472" st0 "notes.txt").mapping ≠ st0.mapping := by
  decide

/-- C8, amended: a file whose extension is neither `.wem` nor `.wav` is
neither decoded nor copied and leaves staging, output tree, ledger and the
converted/failed counters unchanged, but it still contributes a FolderMapping
entry for `<stem>.wav`, and it increments the skipped counter when a
same-named wav already exists in staging or at the out guess path. -/
theorem other_ext_effects (dec : String → DecodeResult) (copyOk : String → Bool)
    (digitFolder folderPath : String) (st : PState) (file : String)
    (h1 : pyExt file ≠ ".wem") (h2 : pyExt file ≠ ".wav") :
    stepFile dec copyOk digitFolder folderPath st file =
      { st with mapping := insertAssoc st.mapping (wavNameOf file) digitFolder,
                skipped := st.skipped +
                  (if wavNameOf file ∈ st.staging ∨
                      digitFolder ++ "/" ++ wavNameOf file ∈ st.outFS then 1 else 0) } := by
  by_cases hc : wavNameOf file ∈ st.staging ∨ digitFolder ++ "/" ++ wavNameOf file ∈ st.outFS
  · simp [stepFile, hc]
  · simp [stepFile, hc, h1, h2]

/-- C8, witness for the amended theorem: the `.txt` file only adds its
mapping entry. -/
theorem other_ext_effects_witness :
    stepFile dec1 yes1 "472" "in/472" st0 "notes.txt" =
      { st0 with mapping := insertAssoc st0.mapping (wavNameOf "notes.txt") "472",
                 skipped := st0.skipped +
                   (if wavNameOf "notes.txt" ∈ st0.staging ∨
                       "472" ++ "/" ++ wavNameOf "notes.txt" ∈ st0.outFS then 1 else 0) } :=
  other_ext_effects dec1 yes1 "472" "in/472" st0 "notes.txt" (by decide) (by decide)

/-- C9: two source files with the same stem traversed in different subfolders
leave a single FolderMapping entry for `<stem>.wav`, carrying the label of
the folder traversed last; the earlier label is no longer retrievable. -/
theorem dup_stem_last_wins (dec : String → DecodeResult) (copyOk : String → Bool)
    (inputRoot p1 p2 f1 f2 : String) (st : PState)
    (hstem : wavNameOf f1 = wavNameOf f2)
    (hdiff : digitFolderOf inputRoot p1 ≠ digitFolderOf inputRoot p2) :
    ((wem_to_wav dec copyOk inputRoot [⟨p1, [f1]⟩, ⟨p2, [f2]⟩] st).mapping.filter
        (fun pr => pr.1 == wavNameOf f2)).length = 1 ∧
    lookupAssoc (wem_to_wav dec copyOk inputRoot [⟨p1, [f1]⟩, ⟨p2, [f2]⟩] st).mapping
      (wavNameOf f2) = some (digitFolderOf inputRoot p2) ∧
    lookupAssoc (wem_to_wav dec copyOk inputRoot [⟨p1, [f1]⟩, ⟨p2, [f2]⟩] st).mapping
      (wavNameOf f2) ≠ some (digitFolderOf inputRoot p1) := by
  have hm : (wem_to_wav dec copyOk inputRoot [⟨p1, [f1]⟩, ⟨p2, [f2]⟩] st).mapping =
      [(wavNameOf f2, digitFolderOf inputRoot p2)] := by
    simp only [wem_to_wav, List.foldl_cons, List.foldl_nil, walkFolder]
    rw [stepFile_mapping, stepFile_mapping]
    simp [insertAssoc, hstem]
  refine ⟨?_, ?_, ?_⟩
  · rw [hm]
    simp
  · rw [hm]
    simp [lookupAssoc]
  · rw [hm]
    have hl : lookupAssoc [(wavNameOf f2, digitFolderOf inputRoot p2)] (wavNameOf f2) =
        some (digitFolderOf inputRoot p2) := by simp [lookupAssoc]
    rw [hl]
    intro hEq
    exact hdiff (Option.some.inj hEq).symm

/-- C9, witness: `in/472/123.wem` then `in/473/123.wem` leave the single
mapping entry `123.wav → 473`. -/
theorem dup_stem_last_wins_witness :
    lookupAssoc (wem_to_wav dec1 yes1 "in"
      [⟨"in/472", ["123.wem"]⟩, ⟨"in/473", ["123.wem"]⟩] st0).mapping "123.wav"
      = some "473" := by
  have h := (dup_stem_last_wins dec1 yes1 "in" "in/472" "in/473" "123.wem" "123.wem" st0
    (by decide) (by decide)).2.1
  have e1 : wavNameOf "123.wem" = "123.wav" := by decide
  have e2 : digitFolderOf "in" "in/473" = "473" := by decide
  rw [e1, e2] at h
  exact h

/-- C10: a ledger entry whose expected staged wav already exists at the start
of the retry pass contributes nothing at all to the pass: removing it from
the replayed list leaves the entire result (counters, ledger, staging,
decoder-call count) unchanged, so it is silently dropped. -/
theorem retry_skips_staged_entry (dec2 : String → DecodeResult) (st : PState) (nf : Nat)
    (l1 l2 : List String) (e : String) (h : wavNameOf e ∈ st.staging) :
    retryPass dec2 (st, nf) (l1 ++ e :: l2) = retryPass dec2 (st, nf) (l1 ++ l2) := by
  unfold retryPass
  rw [List.foldl_append, List.foldl_append, List.foldl_cons]
  congr 1
  exact retryStep_skip dec2 _ e (retryPass_staging_mono dec2 l1 (st, nf) h)

/-- C10, witness: with `123.wav` staged, replaying a ledger containing
`in/472/123.wem` equals replaying the ledger without it. -/
theorem retry_skips_staged_entry_witness :
    retryPass decF (st10, 0) ["in/5.wem", "in/472/123.wem"] =
      retryPass decF (st10, 0) ["in/5.wem"] :=
  retry_skips_staged_entry decF st10 0 ["in/5.wem"] [] "in/472/123.wem" (by decide)

end AR
